import Mathlib

/-!
# go-healthcheck-lib: a shallow embedding of `health-check.go`

The Go package `go_healthcheck_lib` consists of one type, `HealthCheck`, with
the methods `Init`, `AddReadinessProbe`, `Run`, `IsReady`, the background loop
`runReadinessProbes`, the two HTTP handlers `healthCheck` and `readyCheck`, and
the constructor `NewHealthCheck`.

Conventions of the embedding.

* A Go pointer that may be `nil` is an `Option` of the state of its pointee.
* A method with a pointer receiver is a function that takes the receiver's
  state and returns the new one.
* `readyMu` guards the single field `isReady`. Every critical section of the
  source is one read or one write of that field, bracketed by its own
  lock/unlock pair, so a critical section is one atomic step of the embedding
  and the mutex holds no state between two steps.
* `log.Printf` / `log.Println` output is not part of the modelled state.
* What the environment decides (what a probe answers, what `ListenAndServe`
  returns, when the context is cancelled) is an explicit argument.
-/

namespace HealthCheckLib

/-! ## Library types used by the source -/

/-- Instants and durations, in nanoseconds (the unit of Go's `time.Duration`). -/
abbrev Time := Nat

/-- Go's `time.Second`. -/
def Second : Time := 1000000000

/-- Go's `error` values that the source can meet. `ErrServerClosed` is
`http.ErrServerClosed`; `Canceled` and `DeadlineExceeded` are the errors of
package `context`; `other` is any further error, identified by its message. -/
inductive GoError where
  | ErrServerClosed
  | Canceled
  | DeadlineExceeded
  | other (msg : String)
  deriving DecidableEq, Repr

/-- Values a goroutine of the source can panic with. -/
inductive PanicValue where
  /-- runtime error: invalid memory address or nil pointer dereference -/
  | nilDereference
  /-- the message of `sync.WaitGroup.Add`: negative WaitGroup counter -/
  | negativeWaitGroupCounter
  /-- the argument of an explicit `panic(err)` -/
  | err (e : GoError)
  deriving DecidableEq, Repr

/-- How a goroutine body ends: it returns, it panics, or it stays blocked
forever on a channel operation or a blocking call. -/
inductive Outcome where
  | completed
  | panicked (v : PanicValue)
  | blocked
  deriving DecidableEq, Repr

/-- Go's conversion to `int32`: the value of the low 32 bits of `x` read as a
two's complement number. -/
def wrapInt32 (x : Int) : Int :=
  (x + 2147483648) % 4294967296 - 2147483648

/-- State of a `sync.WaitGroup`: its counter, an `int32` kept in the high half
of the 64-bit state word. The low half counts the goroutines parked in `Wait`;
at rest it is non-zero only while the counter is positive, where neither `Add`
nor `Done` looks at it, so it is not part of this state. -/
structure WaitGroup where
  counter : Int
  deriving DecidableEq, Repr

/-- `(*sync.WaitGroup).Add(delta)`: adds `delta` to the counter inside the state
word, so the sum wraps at 32 bits, and then panics with `sync: negative
WaitGroup counter` when the new counter is negative. The counter is updated
before the test, so a panicking call leaves the wrapped value behind. -/
def WaitGroup.Add (wg : WaitGroup) (delta : Int) : WaitGroup × Option PanicValue :=
  let v := wrapInt32 (wg.counter + delta)
  if v < 0 then
    ({ counter := v }, some PanicValue.negativeWaitGroupCounter)
  else
    ({ counter := v }, none)

/-- `(*sync.WaitGroup).Done()` is `Add(-1)`. -/
def WaitGroup.Done (wg : WaitGroup) : WaitGroup × Option PanicValue :=
  wg.Add (-1)

/-- The part of `http.Server` the source sets: the listen address. -/
structure Server where
  Addr : String
  deriving DecidableEq, Repr

/-- An `http.ResponseWriter`, as the record of what a handler did to it: the
status codes passed to `WriteHeader`, in call order, and the bytes passed to
`Write`. -/
structure ResponseWriter where
  statusCodes : List Nat
  body : List UInt8
  deriving DecidableEq, Repr

/-- `w.WriteHeader(code)`. -/
def ResponseWriter.WriteHeader (w : ResponseWriter) (code : Nat) : ResponseWriter :=
  { w with statusCodes := w.statusCodes ++ [code] }

/-- An `*http.Request`, as far as a handler could inspect it. -/
structure Request where
  Method : String
  Path : String
  deriving DecidableEq, Repr

/-- A `context.Context`, as far as its `Done` channel is concerned: the instant
from which the channel is closed, `none` when it is never closed. -/
structure Context where
  doneFrom : Option Time
  deriving DecidableEq, Repr

/-- Whether `ctx.Done()` is closed at the instant `now`. -/
def Context.isDone (ctx : Context) (now : Time) : Bool :=
  match ctx.doneFrom with
  | none => false
  | some t => decide (t ≤ now)

/-- `context.WithTimeout(parent, timeout)` called at the instant `now`: the
derived context is done when its deadline `now + timeout` expires or when the
parent is done, whichever happens first. (Its cancel function is deferred by
the only caller and runs after the derived context was last used.) -/
def WithTimeout (parent : Context) (timeout : Time) (now : Time) : Context :=
  match parent.doneFrom with
  | none => { doneFrom := some (now + timeout) }
  | some t => { doneFrom := some (min t (now + timeout)) }

/-! ## The data model of the package -/

/-- Modelled from the spec: the `ReadinessProbe` interface, whose declaration
is not part of `health-check.go`. The spec gives its contract as
`IsReady() → bool`, side-effect-free from the caller's perspective; `ε` is the
state of the embedding application that a probe inspects. -/
structure ReadinessProbe (ε : Type) where
  IsReady : ε → Bool

/-- The struct `HealthCheck` (source lines 11-18). -/
structure HealthCheck (ε : Type) where
  server : Option Server
  wg : Option WaitGroup
  probes : List (ReadinessProbe ε)
  isReady : Bool

/-- `NewHealthCheck` (lines 112-116): `&HealthCheck{}`, every field at its zero
value. -/
def NewHealthCheck {ε : Type} : HealthCheck ε :=
  { server := none, wg := none, probes := [], isReady := false }

/-- `Init` (lines 20-32): stores the barrier pointer it is given (which may be
nil) and a new server for the listen address. The two `http.HandleFunc` calls
that follow the assignments act on the process-wide default mux, not on the
`HealthCheck`. -/
def Init {ε : Type} (listenAddr : String) (wg : Option WaitGroup)
    (healthCheck : HealthCheck ε) : HealthCheck ε :=
  { healthCheck with wg := wg, server := some { Addr := listenAddr } }

/-- `AddReadinessProbe` (lines 34-36):
`healthCheck.probes = append(healthCheck.probes, probe)`. -/
def AddReadinessProbe {ε : Type} (probe : ReadinessProbe ε) (healthCheck : HealthCheck ε) :
    HealthCheck ε :=
  { healthCheck with probes := healthCheck.probes ++ [probe] }

/-- `IsReady` (lines 74-76). -/
def IsReady {ε : Type} (healthCheck : HealthCheck ε) : Bool :=
  healthCheck.isReady

/-! ## The readiness loop -/

/-- What one run of the inner `for _, probe := range healthCheck.probes` loop
leaves behind: the local variable `isReady`, and the indices of the probes
whose `IsReady()` was called, in call order. -/
structure ProbeScan where
  isReady : Bool
  queried : List Nat
  deriving DecidableEq, Repr

/-- The inner loop of `runReadinessProbes` (lines 81-86), from the probe at
index `i` on: `rest` are the probes not yet visited, `isReady` is the local
variable, `queried` the calls made so far. -/
def rangeProbes {ε : Type} (env : ε) :
    List (ReadinessProbe ε) → Nat → Bool → List Nat → ProbeScan
  | [], _, isReady, queried => { isReady := isReady, queried := queried }
  | probe :: rest, i, isReady, queried =>
    if !probe.IsReady env then
      -- isReady = false; break
      { isReady := false, queried := queried ++ [i] }
    else
      rangeProbes env rest (i + 1) isReady (queried ++ [i])

/-- The probe scan of one iteration of `runReadinessProbes` (lines 80-86):
`isReady := true` followed by the inner loop over all registered probes. -/
def scanProbes {ε : Type} (env : ε) (healthCheck : HealthCheck ε) : ProbeScan :=
  rangeProbes env healthCheck.probes 0 true []

/-- One iteration of the outer loop of `runReadinessProbes` (lines 80-92): the
probe scan, then `healthCheck.isReady = isReady` under the write lock. The
`time.Sleep` that ends the iteration changes no state. -/
def evaluationPass {ε : Type} (env : ε) (healthCheck : HealthCheck ε) : HealthCheck ε :=
  { healthCheck with isReady := (scanProbes env healthCheck).isReady }

/-- `runReadinessProbes` (lines 78-94) never returns. This is the state after
its first `envs.length` iterations, the `k`-th of which sees the application
state `envs[k]`. -/
def runReadinessProbes {ε : Type} (envs : List ε) (healthCheck : HealthCheck ε) :
    HealthCheck ε :=
  envs.foldl (fun hc env => evaluationPass env hc) healthCheck

/-! ## The HTTP handlers -/

/-- The handler `healthCheck` (lines 96-98). Returns the receiver and the
response writer after the call. -/
def healthCheck {ε : Type} (hc : HealthCheck ε) (w : ResponseWriter) (_req : Request) :
    HealthCheck ε × ResponseWriter :=
  (hc, w.WriteHeader 200)

/-- The handler `readyCheck` (lines 100-110): reads `isReady` under the read
lock and answers 200 or 503. -/
def readyCheck {ε : Type} (hc : HealthCheck ε) (w : ResponseWriter) (_req : Request) :
    HealthCheck ε × ResponseWriter :=
  let isReady := hc.isReady
  if isReady then
    (hc, w.WriteHeader 200)
  else
    (hc, w.WriteHeader 503)

/-! ## `Run`: the shutdown watcher and the serve activity

`Run` (lines 38-72) makes the unbuffered channel `httpShutdownCh`, starts
`runReadinessProbes` and two anonymous goroutines, and returns. The two
goroutines are embedded one by one; `Run` connects them through the channel. -/

/-- A call of `healthCheck.server.Shutdown`: the context passed and the instant
of the call. -/
structure ShutdownCall where
  ctx : Context
  at_ : Time
  deriving DecidableEq, Repr

/-- Where the shutdown watcher gets to before its channel send. -/
structure WatcherRun where
  /-- `none` while the goroutine is on its way to the send, else how it ended
  before reaching it -/
  stopped : Option Outcome
  /-- the `Shutdown` call it made, if it made one -/
  shutdown : Option ShutdownCall
  /-- whether it reached `httpShutdownCh <- struct{}{}` -/
  reachedSend : Bool
  deriving DecidableEq, Repr

/-- The first goroutine of `Run` (lines 44-57), up to its send on
`httpShutdownCh`. `<-ctx.Done()` returns once `ctx` is done; `delay` is the
time the goroutine takes from that instant to the `context.WithTimeout` call,
and `delay2` from there to the `Shutdown` call. Whatever `Shutdown` returns is
only logged. -/
def Run_shutdown {ε : Type} (healthCheck : HealthCheck ε) (ctx : Context)
    (delay delay2 : Time) : WatcherRun :=
  match ctx.doneFrom with
  | none =>
    -- blocked on <-ctx.Done() forever
    { stopped := some Outcome.blocked, shutdown := none, reachedSend := false }
  | some trigger =>
    let now := trigger + delay
    let graceCtx := WithTimeout ctx (1 * Second) now
    match healthCheck.server with
    | none =>
      -- Shutdown on a nil *http.Server
      { stopped := some (Outcome.panicked PanicValue.nilDereference), shutdown := none,
        reachedSend := false }
    | some _ =>
      { stopped := none, shutdown := some { ctx := graceCtx, at_ := now + delay2 },
        reachedSend := true }

/-- One step of the serve activity, as it shows from outside. -/
inductive ServeEvent where
  | wgAdd (delta : Int)
  | listenAndServe
  | recvShutdown
  | wgDone
  deriving DecidableEq, Repr

/-- The result of the serve activity: how it ended, the barrier after it, and
what it did, in order. -/
structure ServeRun where
  outcome : Outcome
  wg : Option WaitGroup
  events : List ServeEvent
  deriving DecidableEq, Repr

/-- The body of the second goroutine of `Run` after `defer healthCheck.wg.Done()`
(lines 63-70). `listenResult` is what `ListenAndServe` returns, `none` when it
never returns; `handoff` tells whether a value ever arrives on
`httpShutdownCh`. -/
def Run_serve_body {ε : Type} (healthCheck : HealthCheck ε) (listenResult : Option GoError)
    (handoff : Bool) : Outcome × List ServeEvent :=
  match healthCheck.server with
  | none =>
    -- ListenAndServe on a nil *http.Server
    (Outcome.panicked PanicValue.nilDereference, [ServeEvent.listenAndServe])
  | some _ =>
    match listenResult with
    | none => (Outcome.blocked, [ServeEvent.listenAndServe])
    | some err =>
      -- <-httpShutdownCh
      if !handoff then
        (Outcome.blocked, [ServeEvent.listenAndServe])
      else if err ≠ GoError.ErrServerClosed then
        (Outcome.panicked (PanicValue.err err),
          [ServeEvent.listenAndServe, ServeEvent.recvShutdown])
      else
        (Outcome.completed, [ServeEvent.listenAndServe, ServeEvent.recvShutdown])

/-- The second goroutine of `Run` (lines 59-71). `healthCheck.wg.Add(1)` comes
before the `defer`, so a panic inside it ends the goroutine with nothing
deferred. The deferred `wg.Done()` runs when the body returns and when it
panics; it does not run while the body is blocked. A `wgAdd` or `wgDone` event
stands for a call that reached the counter, whether or not it then panicked. -/
def Run_serve {ε : Type} (healthCheck : HealthCheck ε) (listenResult : Option GoError)
    (handoff : Bool) : ServeRun :=
  match healthCheck.wg with
  | none =>
    -- healthCheck.wg.Add(1) on a nil *sync.WaitGroup; nothing is deferred yet
    { outcome := Outcome.panicked PanicValue.nilDereference, wg := none, events := [] }
  | some wg =>
    match wg.Add 1 with
    | (wg1, some v) =>
      -- Add panicked; nothing is deferred yet
      { outcome := Outcome.panicked v, wg := some wg1, events := [ServeEvent.wgAdd 1] }
    | (wg1, none) =>
      let body := Run_serve_body healthCheck listenResult handoff
      match body.1 with
      | Outcome.blocked =>
        { outcome := Outcome.blocked, wg := some wg1,
          events := ServeEvent.wgAdd 1 :: body.2 }
      | outcome =>
        match wg1.Done with
        | (wg2, some v) =>
          { outcome := Outcome.panicked v, wg := some wg2,
            events := ServeEvent.wgAdd 1 :: body.2 ++ [ServeEvent.wgDone] }
        | (wg2, none) =>
          { outcome := outcome, wg := some wg2,
            events := ServeEvent.wgAdd 1 :: body.2 ++ [ServeEvent.wgDone] }

/-- `Run` (lines 38-72), without the readiness loop: the watcher and the serve
activity, joined by `httpShutdownCh`. The only sender on the channel is the
watcher, so a value arrives at the serve activity exactly when the watcher
reaches its send. -/
def Run {ε : Type} (healthCheck : HealthCheck ε) (ctx : Context) (delay delay2 : Time)
    (listenResult : Option GoError) : WatcherRun × ServeRun :=
  let watcher := Run_shutdown healthCheck ctx delay delay2
  (watcher, Run_serve healthCheck listenResult watcher.reachedSend)

/-! ## Lemmas on the readiness loop -/

/-- The inner loop, started at index `i` with local `isReady = b` and log `q`:
the local variable ends as `b` and-ed with every remaining answer, and the log
grows by the indices from `i` up to the first probe that answers false. -/
theorem rangeProbes_spec {ε : Type} (env : ε) (ps : List (ReadinessProbe ε)) :
    ∀ (i : Nat) (b : Bool) (q : List Nat),
      rangeProbes env ps i b q =
        { isReady := b && ps.all (fun p => p.IsReady env),
          queried := q ++ List.range' i
            (min (ps.findIdx (fun p => !p.IsReady env) + 1) ps.length) } := by
  induction ps with
  | nil => intro i b q; simp [rangeProbes]
  | cons p rest ih =>
    intro i b q
    by_cases hp : p.IsReady env = true
    · have hmin : min (List.findIdx (fun p => !p.IsReady env) rest + 1 + 1) (rest.length + 1)
          = min (List.findIdx (fun p => !p.IsReady env) rest + 1) rest.length + 1 := by
        omega
      simp [rangeProbes, hp, ih, List.findIdx_cons, hmin, List.range'_succ]
    · simp only [Bool.not_eq_true] at hp
      simp [rangeProbes, hp, List.findIdx_cons]

theorem scanProbes_spec {ε : Type} (env : ε) (hc : HealthCheck ε) :
    scanProbes env hc =
      { isReady := hc.probes.all (fun p => p.IsReady env),
        queried := List.range
          (min (hc.probes.findIdx (fun p => !p.IsReady env) + 1) hc.probes.length) } := by
  simp [scanProbes, rangeProbes_spec, List.range_eq_range']

theorem evaluationPass_probes {ε : Type} (env : ε) (hc : HealthCheck ε) :
    (evaluationPass env hc).probes = hc.probes := rfl

theorem runReadinessProbes_probes {ε : Type} (envs : List ε) :
    ∀ hc : HealthCheck ε, (runReadinessProbes envs hc).probes = hc.probes := by
  induction envs with
  | nil => intro hc; rfl
  | cons e es ih =>
    intro hc
    simp only [runReadinessProbes, List.foldl_cons] at ih ⊢
    rw [ih]; rfl

theorem runReadinessProbes_append {ε : Type} (envs : List ε) (env : ε) (hc : HealthCheck ε) :
    runReadinessProbes (envs ++ [env]) hc = evaluationPass env (runReadinessProbes envs hc) := by
  simp [runReadinessProbes, List.foldl_append]

theorem findIdx_notReady_eq_length {ε : Type} (env : ε) (ps : List (ReadinessProbe ε))
    (h : ∀ p ∈ ps, p.IsReady env = true) :
    ps.findIdx (fun p => !p.IsReady env) = ps.length := by
  induction ps with
  | nil => rfl
  | cons p rest ih =>
    have hp : p.IsReady env = true := h p (List.mem_cons_self _ _)
    have hr : ∀ q ∈ rest, q.IsReady env = true := fun q hq => h q (List.mem_cons_of_mem _ hq)
    simp [List.findIdx_cons, hp, ih hr]

/-- An index lies below the cut `min (firstFalse + 1) length` exactly when it
is a valid index and every probe before it answers true. -/
theorem lt_cut_iff {ε : Type} (env : ε) (ps : List (ReadinessProbe ε)) :
    ∀ i : Nat, i < min (ps.findIdx (fun p => !p.IsReady env) + 1) ps.length ↔
      (i < ps.length ∧ ∀ j, j < i → ∀ p, ps[j]? = some p → p.IsReady env = true) := by
  induction ps with
  | nil => intro i; simp
  | cons p rest ih =>
    intro i
    by_cases hp : p.IsReady env = true
    · cases i with
      | zero => simp [List.findIdx_cons, hp]
      | succ k =>
        have hk := ih k
        simp only [List.findIdx_cons, hp, Bool.not_true, cond_false, List.length_cons]
        constructor
        · intro hlt
          have hlt2 : k < min (List.findIdx (fun p => !p.IsReady env) rest + 1) rest.length := by
            omega
          obtain ⟨h1, h2⟩ := hk.mp hlt2
          refine ⟨by omega, ?_⟩
          intro j hj q hq
          cases j with
          | zero =>
            simp only [List.getElem?_cons_zero, Option.some.injEq] at hq
            subst hq; exact hp
          | succ m =>
            simp only [List.getElem?_cons_succ] at hq
            exact h2 m (by omega) q hq
        · rintro ⟨h1, h2⟩
          have : k < min (List.findIdx (fun p => !p.IsReady env) rest + 1) rest.length := by
            apply hk.mpr
            refine ⟨by omega, ?_⟩
            intro j hj q hq
            exact h2 (j + 1) (by omega) q (by simpa using hq)
          omega
    · simp only [Bool.not_eq_true] at hp
      cases i with
      | zero => simp [List.findIdx_cons, hp]
      | succ k =>
        simp only [List.findIdx_cons, hp, Bool.not_false, cond_true, List.length_cons]
        constructor
        · intro hlt; omega
        · rintro ⟨_, h2⟩
          have := h2 0 (by omega) p (by simp)
          rw [hp] at this
          exact absurd this (by decide)

/-! ## Lemmas on the barrier and the serve activity -/

theorem wrapInt32_of_inRange (x : Int) (hlo : -2147483648 ≤ x) (hhi : x < 2147483648) :
    wrapInt32 x = x := by
  unfold wrapInt32
  omega

/-- On a counter that is non-negative and below the `int32` maximum, `Add(1)`
returns with the counter one higher. -/
theorem WaitGroup.Add_one (wg : WaitGroup) (hvalid : 0 ≤ wg.counter)
    (hroom : wg.counter < 2147483647) :
    wg.Add 1 = ({ counter := wg.counter + 1 }, none) := by
  have hw : wrapInt32 (wg.counter + 1) = wg.counter + 1 :=
    wrapInt32_of_inRange _ (by omega) (by omega)
  have hneg : ¬ (wg.counter + 1 < 0) := by omega
  simp only [WaitGroup.Add, hw, hneg, if_false]

/-- After that `Add(1)`, `Done()` returns with the counter back where it was. -/
theorem WaitGroup.Done_succ (wg : WaitGroup) (hvalid : 0 ≤ wg.counter)
    (hroom : wg.counter < 2147483647) :
    ({ counter := wg.counter + 1 } : WaitGroup).Done = (wg, none) := by
  have hw : wrapInt32 (wg.counter + 1 + -1) = wg.counter := by
    have : wg.counter + 1 + -1 = wg.counter := by omega
    rw [this]
    exact wrapInt32_of_inRange _ (by omega) (by omega)
  have hneg : ¬ (wg.counter < 0) := by omega
  simp only [WaitGroup.Done, WaitGroup.Add, hw, hneg, if_false]

/-- At the `int32` maximum, `Add(1)` wraps the counter to the minimum and
panics. -/
theorem WaitGroup.Add_one_at_max :
    ({ counter := 2147483647 } : WaitGroup).Add 1
      = ({ counter := -2147483648 }, some PanicValue.negativeWaitGroupCounter) := by
  decide

/-- Once a value arrives on `httpShutdownCh`, the serve activity of a barrier
with room for one more `Add` panics with the error of `ListenAndServe` unless
that error is `http.ErrServerClosed`, in which case it completes. -/
theorem Run_serve_outcome_of_handoff {ε : Type} (listenAddr : String) (wg : WaitGroup)
    (hc : HealthCheck ε) (err : GoError) (hvalid : 0 ≤ wg.counter)
    (hroom : wg.counter < 2147483647) :
    (Run_serve (Init listenAddr (some wg) hc) (some err) true).outcome
      = if err = GoError.ErrServerClosed then Outcome.completed
        else Outcome.panicked (PanicValue.err err) := by
  have hA := WaitGroup.Add_one wg hvalid hroom
  have hD := WaitGroup.Done_succ wg hvalid hroom
  by_cases h : err = GoError.ErrServerClosed
  · simp [Run_serve, Run_serve_body, Init, hA, hD, h]
  · simp [Run_serve, Run_serve_body, Init, hA, hD, h]

/-- Whatever the barrier, the serve activity of a `Run` whose context is never
cancelled does not end in `panic(err)`. -/
theorem Run_serve_never_panics_with_err {ε : Type} (hc : HealthCheck ε)
    (delay delay2 : Time) (listenResult : Option GoError) (err : GoError) :
    (Run hc { doneFrom := none } delay delay2 listenResult).2.outcome
      ≠ Outcome.panicked (PanicValue.err err) := by
  have hbody : ∀ e : GoError,
      (Run_serve_body hc listenResult false).1 ≠ Outcome.panicked (PanicValue.err e) := by
    intro e
    unfold Run_serve_body
    cases hc.server with
    | none => simp
    | some srv =>
      cases listenResult with
      | none => simp
      | some e2 => simp
  have hAdd : ∀ (w : WaitGroup) (d : Int) (v : PanicValue),
      (w.Add d).2 = some v → v = PanicValue.negativeWaitGroupCounter := by
    intro w d v hv
    unfold WaitGroup.Add at hv
    simp only at hv
    split at hv
    · simp only [Option.some.injEq] at hv; exact hv.symm
    · simp at hv
  simp only [Run, Run_shutdown, Run_serve]
  cases hwg : hc.wg with
  | none => simp
  | some w =>
    simp only
    rcases hA : w.Add 1 with ⟨w1, _ | v⟩
    · simp only
      have hb := hbody err
      rcases hB : (Run_serve_body hc listenResult false).1 with _ | pv | _
      · simp only
        rcases hD : w1.Done with ⟨w2, _ | v2⟩
        · simp
        · simp only
          have := hAdd w1 (-1) v2 (by rw [← WaitGroup.Done, hD])
          subst this; simp
      · simp only
        rcases hD : w1.Done with ⟨w2, _ | v2⟩
        · simp only
          rw [hB] at hb
          exact hb
        · simp only
          have := hAdd w1 (-1) v2 (by rw [← WaitGroup.Done, hD])
          subst this; simp
      · simp
    · simp only
      have := hAdd w 1 v (by rw [hA])
      subst this; simp

/-! ## The claims -/

/-- C1: one evaluation pass of `runReadinessProbes` leaves `isReady` equal to
the logical AND of the answers of all registered probes: it is true after the
pass exactly when every probe answers true, it is false as soon as one probe
answers false, the value it had before the pass has no influence, and the same
holds for the latest pass after any number of earlier ones. -/
theorem evaluationPass_isReady_eq_and {ε : Type} (env : ε) (hc : HealthCheck ε) :
    (evaluationPass env hc).isReady = hc.probes.all (fun p => p.IsReady env)
    ∧ ((evaluationPass env hc).isReady = true ↔ ∀ p ∈ hc.probes, p.IsReady env = true)
    ∧ ((∃ p ∈ hc.probes, p.IsReady env = false) → (evaluationPass env hc).isReady = false)
    ∧ (∀ previous : Bool,
        (evaluationPass env { hc with isReady := previous }).isReady
          = (evaluationPass env hc).isReady)
    ∧ (∀ envs : List ε,
        (runReadinessProbes (envs ++ [env]) hc).isReady
          = hc.probes.all (fun p => p.IsReady env)) := by
  have h1 : (evaluationPass env hc).isReady = hc.probes.all (fun p => p.IsReady env) := by
    simp [evaluationPass, scanProbes_spec]
  refine ⟨h1, ?_, ?_, ?_, ?_⟩
  · rw [h1, List.all_eq_true]
  · rintro ⟨p, hp, hfalse⟩
    rw [h1]
    cases hall : hc.probes.all (fun p => p.IsReady env) with
    | false => rfl
    | true =>
      rw [List.all_eq_true] at hall
      have := hall p hp
      rw [hfalse] at this
      exact absurd this (by decide)
  · intro previous
    simp [evaluationPass, scanProbes]
  · intro envs
    rw [runReadinessProbes_append]
    simp [evaluationPass, scanProbes_spec, runReadinessProbes_probes]

/-- Witness for C1 at two probes, the first answering true and the second
false, with `isReady` true before the pass: one probe answers false, so the
pass leaves `isReady` false. -/
theorem evaluationPass_isReady_eq_and_witness :
    (∃ p ∈ ({ server := none, wg := none,
              probes := [⟨fun _ => true⟩, ⟨fun _ => false⟩], isReady := true } :
            HealthCheck Unit).probes, p.IsReady () = false)
    ∧ (evaluationPass ()
        ({ server := none, wg := none,
           probes := [⟨fun _ => true⟩, ⟨fun _ => false⟩], isReady := true } :
          HealthCheck Unit)).isReady = false :=
  ⟨⟨⟨fun _ => false⟩, by simp, rfl⟩,
   (evaluationPass_isReady_eq_and ()
      ({ server := none, wg := none,
         probes := [⟨fun _ => true⟩, ⟨fun _ => false⟩], isReady := true } :
        HealthCheck Unit)).2.2.1 ⟨⟨fun _ => false⟩, by simp, rfl⟩⟩

/-- C2: for a `HealthCheck` with an empty probe list, one evaluation pass sets
`isReady` to true, whatever its previous value. -/
theorem evaluationPass_empty_probes {ε : Type} (env : ε) (hc : HealthCheck ε)
    (hempty : hc.probes = []) :
    (evaluationPass env hc).isReady = true := by
  simp [evaluationPass, scanProbes, hempty, rangeProbes]

/-- Witness for C2: a fresh, initialised `HealthCheck` without probes, whose
`isReady` is false before the pass. -/
theorem evaluationPass_empty_probes_witness :
    (Init "0.0.0.0:8080" (some ⟨0⟩) (NewHealthCheck : HealthCheck Unit)).probes = []
    ∧ (Init "0.0.0.0:8080" (some ⟨0⟩) (NewHealthCheck : HealthCheck Unit)).isReady = false
    ∧ (evaluationPass () (Init "0.0.0.0:8080" (some ⟨0⟩) (NewHealthCheck : HealthCheck Unit))).isReady
        = true :=
  ⟨rfl, rfl, evaluationPass_empty_probes () _ rfl⟩

theorem foldl_AddReadinessProbe_isReady {ε : Type} (ps : List (ReadinessProbe ε)) :
    ∀ hc : HealthCheck ε,
      (ps.foldl (fun h p => AddReadinessProbe p h) hc).isReady = hc.isReady := by
  induction ps with
  | nil => intro hc; rfl
  | cons p rest ih => intro hc; simp only [List.foldl_cons]; rw [ih]; rfl

/-- C3: readiness is false before the first evaluation pass: after
`NewHealthCheck`, `Init` and any number of `AddReadinessProbe` calls, `IsReady`
returns false (the field `isReady` is false). -/
theorem IsReady_false_before_first_pass {ε : Type} (listenAddr : String)
    (wg : Option WaitGroup) (ps : List (ReadinessProbe ε)) :
    IsReady (ps.foldl (fun h p => AddReadinessProbe p h)
      (Init listenAddr wg (NewHealthCheck : HealthCheck ε))) = false
    ∧ (ps.foldl (fun h p => AddReadinessProbe p h)
      (Init listenAddr wg (NewHealthCheck : HealthCheck ε))).isReady = false := by
  have h := foldl_AddReadinessProbe_isReady ps (Init listenAddr wg (NewHealthCheck : HealthCheck ε))
  exact ⟨h, h⟩

/-- C4: for every `HealthCheck` state, response writer and request, the
`/ready-check` handler makes exactly one `WriteHeader` call, with 200 if
`isReady` is true and 503 otherwise; it writes no body and leaves the
`HealthCheck` as it was; on a `HealthCheck` on which no evaluation pass has run
yet it writes 503. -/
theorem readyCheck_status {ε : Type} (hc : HealthCheck ε) (w : ResponseWriter) (req : Request) :
    (readyCheck hc w req).2.statusCodes
        = w.statusCodes ++ [if hc.isReady = true then 200 else 503]
    ∧ (readyCheck hc w req).2.statusCodes.length = w.statusCodes.length + 1
    ∧ (readyCheck hc w req).2.body = w.body
    ∧ (readyCheck hc w req).1.isReady = hc.isReady
    ∧ (readyCheck hc w req).1.probes = hc.probes
    ∧ (∀ (listenAddr : String) (wg : Option WaitGroup) (ps : List (ReadinessProbe ε)),
        (readyCheck
            (ps.foldl (fun h p => AddReadinessProbe p h)
              (Init listenAddr wg (NewHealthCheck : HealthCheck ε))) w req).2.statusCodes
          = w.statusCodes ++ [503]) := by
  refine ⟨?_, ?_, ?_, ?_, ?_, ?_⟩
  · cases h : hc.isReady <;> simp [readyCheck, h, ResponseWriter.WriteHeader]
  · cases h : hc.isReady <;> simp [readyCheck, h, ResponseWriter.WriteHeader]
  · cases h : hc.isReady <;> simp [readyCheck, h, ResponseWriter.WriteHeader]
  · cases h : hc.isReady <;> simp [readyCheck, h]
  · cases h : hc.isReady <;> simp [readyCheck, h]
  · intro listenAddr wg ps
    have h := foldl_AddReadinessProbe_isReady ps
      (Init listenAddr wg (NewHealthCheck : HealthCheck ε))
    have h0 : (Init listenAddr wg (NewHealthCheck : HealthCheck ε)).isReady = false := rfl
    rw [h0] at h
    simp [readyCheck, h, ResponseWriter.WriteHeader]

/-- C5: for every `HealthCheck` state, response writer and request, the
`/health-check` handler makes exactly one `WriteHeader` call, with 200, writes
no body, leaves the `HealthCheck` (its readiness state included) as it was, and
answers the same for any two `HealthCheck` states. -/
theorem healthCheck_status {ε : Type} (hc : HealthCheck ε) (w : ResponseWriter) (req : Request) :
    (healthCheck hc w req).2.statusCodes = w.statusCodes ++ [200]
    ∧ (healthCheck hc w req).2.body = w.body
    ∧ (healthCheck hc w req).1.isReady = hc.isReady
    ∧ (healthCheck hc w req).1.probes = hc.probes
    ∧ (healthCheck hc w req).1.server = hc.server
    ∧ (healthCheck hc w req).1.wg = hc.wg
    ∧ (∀ other : HealthCheck ε, (healthCheck other w req).2 = (healthCheck hc w req).2) := by
  refine ⟨rfl, rfl, rfl, rfl, rfl, rfl, ?_⟩
  intro other; rfl

/-- C6: `AddReadinessProbe p` appends `p` to the probe list: the list after
the call is the list before followed by `p`, so every earlier probe stays at
its index and the length grows by exactly one; `isReady`, the server handle and
the barrier are unchanged. -/
theorem AddReadinessProbe_appends {ε : Type} (p : ReadinessProbe ε) (hc : HealthCheck ε) :
    (AddReadinessProbe p hc).probes = hc.probes ++ [p]
    ∧ (AddReadinessProbe p hc).probes.length = hc.probes.length + 1
    ∧ (AddReadinessProbe p hc).probes.take hc.probes.length = hc.probes
    ∧ (AddReadinessProbe p hc).probes.drop hc.probes.length = [p]
    ∧ (AddReadinessProbe p hc).isReady = hc.isReady
    ∧ (AddReadinessProbe p hc).server = hc.server
    ∧ (AddReadinessProbe p hc).wg = hc.wg := by
  refine ⟨rfl, ?_, ?_, ?_, rfl, rfl, rfl⟩
  · simp [AddReadinessProbe]
  · simp [AddReadinessProbe]
  · simp [AddReadinessProbe]

/-- C10: an evaluation pass short-circuits on the first false. With `k` the
index of the first probe that answers false (`k` is the number of probes when
none does), the calls of one pass are the indices `0, 1, ..., k` cut at the
number of probes, in this order; so each probe is called at most once, an index
is called exactly when it is valid and every probe before it answers true, and
when no probe answers false every probe is called exactly once. -/
theorem scanProbes_short_circuits {ε : Type} (env : ε) (hc : HealthCheck ε) :
    (scanProbes env hc).queried
        = List.range (min (hc.probes.findIdx (fun p => !p.IsReady env) + 1) hc.probes.length)
    ∧ (scanProbes env hc).queried.Nodup
    ∧ (∀ i : Nat, i ∈ (scanProbes env hc).queried ↔
        (i < hc.probes.length ∧
          ∀ j, j < i → ∀ p, hc.probes[j]? = some p → p.IsReady env = true))
    ∧ ((∀ p ∈ hc.probes, p.IsReady env = true) →
        (scanProbes env hc).queried = List.range hc.probes.length) := by
  have hq := congrArg ProbeScan.queried (scanProbes_spec env hc)
  simp only at hq
  refine ⟨hq, ?_, ?_, ?_⟩
  · rw [hq]; exact List.nodup_range _
  · intro i
    rw [hq, List.mem_range]
    exact lt_cut_iff env hc.probes i
  · intro hall
    rw [hq, findIdx_notReady_eq_length env hc.probes hall]
    congr 1
    omega

/-- Witness for C10: three probes answering true, false, true; the pass calls
the first two and not the third. With two probes that both answer true, both
are called. -/
theorem scanProbes_short_circuits_witness :
    (scanProbes ()
        ({ server := none, wg := none,
           probes := [⟨fun _ => true⟩, ⟨fun _ => false⟩, ⟨fun _ => true⟩],
           isReady := false } : HealthCheck Unit)).queried = [0, 1]
    ∧ (scanProbes ()
        ({ server := none, wg := none,
           probes := [⟨fun _ => true⟩, ⟨fun _ => true⟩],
           isReady := false } : HealthCheck Unit)).queried = [0, 1] :=
  ⟨(scanProbes_short_circuits ()
      ({ server := none, wg := none,
         probes := [⟨fun _ => true⟩, ⟨fun _ => false⟩, ⟨fun _ => true⟩],
         isReady := false } : HealthCheck Unit)).1.trans (by decide),
   ((scanProbes_short_circuits ()
      ({ server := none, wg := none,
         probes := [⟨fun _ => true⟩, ⟨fun _ => true⟩],
         isReady := false } : HealthCheck Unit)).2.2.2 (by simp)).trans (by decide)⟩

/-- C7, the code where it departs from the claim: when the context given to
`Run` is never cancelled, nothing is ever sent on `httpShutdownCh`. Whatever
the barrier and whatever error `ListenAndServe` returned, the serve activity
then never panics with that error. With a barrier that has room for one more
`Add` (counter non-negative and below the `int32` maximum) it stays blocked on
its receive: it does not panic, it does not complete, and the barrier keeps the
increment of `wg.Add(1)`. -/
theorem Run_serve_blocked_without_cancellation {ε : Type} (listenAddr : String)
    (hc : HealthCheck ε) (delay delay2 : Time) (err : GoError) :
    (∀ wg : WaitGroup,
      (Run (Init listenAddr (some wg) hc) { doneFrom := none } delay delay2 (some err)).2.outcome
        ≠ Outcome.panicked (PanicValue.err err))
    ∧ (∀ wg : WaitGroup, 0 ≤ wg.counter → wg.counter < 2147483647 →
      (Run (Init listenAddr (some wg) hc) { doneFrom := none } delay delay2 (some err)).2.outcome
          = Outcome.blocked
      ∧ (Run (Init listenAddr (some wg) hc) { doneFrom := none } delay delay2 (some err)).2.events
          = [ServeEvent.wgAdd 1, ServeEvent.listenAndServe]
      ∧ (Run (Init listenAddr (some wg) hc) { doneFrom := none } delay delay2 (some err)).2.wg
          = some { counter := wg.counter + 1 }) := by
  refine ⟨?_, ?_⟩
  · intro wg
    exact Run_serve_never_panics_with_err _ delay delay2 (some err) err
  · intro wg hvalid hroom
    have hA := WaitGroup.Add_one wg hvalid hroom
    simp [Run, Run_shutdown, Run_serve, Run_serve_body, Init, hA]

/-- Witness for C7: a fresh barrier (counter 0), a context that is never
cancelled, and `ListenAndServe` failing to bind: the serve activity is blocked,
after `Add(1)` and the serve call only, and the barrier stands at 1. -/
theorem Run_serve_blocked_without_cancellation_witness :
    (Run (Init ":8080" (some { counter := 0 }) (NewHealthCheck : HealthCheck Unit))
        { doneFrom := none } 0 0
        (some (GoError.other "listen tcp :8080: bind: address already in use"))).2.outcome
      = Outcome.blocked
    ∧ (Run (Init ":8080" (some { counter := 0 }) (NewHealthCheck : HealthCheck Unit))
        { doneFrom := none } 0 0
        (some (GoError.other "listen tcp :8080: bind: address already in use"))).2.events
      = [ServeEvent.wgAdd 1, ServeEvent.listenAndServe]
    ∧ (Run (Init ":8080" (some { counter := 0 }) (NewHealthCheck : HealthCheck Unit))
        { doneFrom := none } 0 0
        (some (GoError.other "listen tcp :8080: bind: address already in use"))).2.wg
      = some { counter := 1 } :=
  (Run_serve_blocked_without_cancellation ":8080" (NewHealthCheck : HealthCheck Unit) 0 0
    (GoError.other "listen tcp :8080: bind: address already in use")).2
    { counter := 0 } (by decide) (by decide)

/-- C8, as amended: in the serve activity of an initialised `HealthCheck` whose
barrier is valid (counter non-negative, as the library keeps it) and below the
`int32` maximum 2147483647, the barrier is incremented by one before the serve
call and decremented exactly once when the activity ends, on the completion
path and on the `panic(err)` path alike: the first step is `wg.Add(1)`, an
activity that ends has `wg.Done()` as its last step, exactly once, and leaves
the counter as it found it; an activity that has not ended has not decremented;
no run decrements twice. -/
theorem Run_serve_brackets_barrier {ε : Type} (listenAddr : String) (wg : WaitGroup)
    (hc : HealthCheck ε) (listenResult : Option GoError) (handoff : Bool)
    (hvalid : 0 ≤ wg.counter) (hroom : wg.counter < 2147483647) :
    (Run_serve (Init listenAddr (some wg) hc) listenResult handoff).events.head?
        = some (ServeEvent.wgAdd 1)
    ∧ (Run_serve (Init listenAddr (some wg) hc) listenResult handoff).events.count
        ServeEvent.wgDone ≤ 1
    ∧ ((Run_serve (Init listenAddr (some wg) hc) listenResult handoff).outcome ≠ Outcome.blocked →
        (Run_serve (Init listenAddr (some wg) hc) listenResult handoff).events
            = [ServeEvent.wgAdd 1, ServeEvent.listenAndServe, ServeEvent.recvShutdown,
               ServeEvent.wgDone]
        ∧ (Run_serve (Init listenAddr (some wg) hc) listenResult handoff).wg = some wg)
    ∧ ((Run_serve (Init listenAddr (some wg) hc) listenResult handoff).outcome = Outcome.blocked →
        (Run_serve (Init listenAddr (some wg) hc) listenResult handoff).events
            = [ServeEvent.wgAdd 1, ServeEvent.listenAndServe]
        ∧ (Run_serve (Init listenAddr (some wg) hc) listenResult handoff).wg
            = some { counter := wg.counter + 1 })
    ∧ (∀ err : GoError,
        (Run_serve (Init listenAddr (some wg) hc) (some err) true).outcome ≠ Outcome.blocked) := by
  have hA := WaitGroup.Add_one wg hvalid hroom
  have hD := WaitGroup.Done_succ wg hvalid hroom
  refine ⟨?_, ?_, ?_, ?_, ?_⟩
  · cases listenResult with
    | none => simp [Run_serve, Run_serve_body, Init, hA]
    | some err =>
      cases handoff <;> by_cases h : err = GoError.ErrServerClosed <;>
        simp [Run_serve, Run_serve_body, Init, hA, hD, h]
  · cases listenResult with
    | none => simp [Run_serve, Run_serve_body, Init, hA]
    | some err =>
      cases handoff <;> by_cases h : err = GoError.ErrServerClosed <;>
        simp [Run_serve, Run_serve_body, Init, hA, hD, h]
  · cases listenResult with
    | none => simp [Run_serve, Run_serve_body, Init, hA]
    | some err =>
      cases handoff <;> by_cases h : err = GoError.ErrServerClosed <;>
        simp [Run_serve, Run_serve_body, Init, hA, hD, h]
  · cases listenResult with
    | none => simp [Run_serve, Run_serve_body, Init, hA]
    | some err =>
      cases handoff <;> by_cases h : err = GoError.ErrServerClosed <;>
        simp [Run_serve, Run_serve_body, Init, hA, hD, h]
  · intro err
    by_cases h : err = GoError.ErrServerClosed <;>
      simp [Run_serve, Run_serve_body, Init, hA, hD, h]

/-- Witness for C8: a barrier at 2, `ListenAndServe` returning
`http.ErrServerClosed`, the handoff delivered: the activity ends, its steps are
`Add(1)`, serve, receive, `Done()`, and the barrier is back at 2. With a bind
error instead the activity ends by panic, with the same steps. -/
theorem Run_serve_brackets_barrier_witness :
    ((0 : Int) ≤ 2 ∧ (2 : Int) < 2147483647)
    ∧ ((Run_serve (Init ":8080" (some { counter := 2 }) (NewHealthCheck : HealthCheck Unit))
        (some GoError.ErrServerClosed) true).outcome ≠ Outcome.blocked)
    ∧ ((Run_serve (Init ":8080" (some { counter := 2 }) (NewHealthCheck : HealthCheck Unit))
          (some GoError.ErrServerClosed) true).events
        = [ServeEvent.wgAdd 1, ServeEvent.listenAndServe, ServeEvent.recvShutdown,
           ServeEvent.wgDone]
      ∧ (Run_serve (Init ":8080" (some { counter := 2 }) (NewHealthCheck : HealthCheck Unit))
          (some GoError.ErrServerClosed) true).wg = some { counter := 2 })
    ∧ ((Run_serve (Init ":8080" (some { counter := 2 }) (NewHealthCheck : HealthCheck Unit))
          (some (GoError.other "bind: address already in use")) true).events
        = [ServeEvent.wgAdd 1, ServeEvent.listenAndServe, ServeEvent.recvShutdown,
           ServeEvent.wgDone]
      ∧ (Run_serve (Init ":8080" (some { counter := 2 }) (NewHealthCheck : HealthCheck Unit))
          (some (GoError.other "bind: address already in use")) true).wg
          = some { counter := 2 }) :=
  ⟨⟨by decide, by decide⟩, by decide,
   (Run_serve_brackets_barrier ":8080" { counter := 2 } (NewHealthCheck : HealthCheck Unit)
      (some GoError.ErrServerClosed) true (by decide) (by decide)).2.2.1 (by decide),
   (Run_serve_brackets_barrier ":8080" { counter := 2 } (NewHealthCheck : HealthCheck Unit)
      (some (GoError.other "bind: address already in use")) true
      (by decide) (by decide)).2.2.1 (by decide)⟩

/-- C8 as stated fails at the `int32` maximum: with the barrier at 2147483647
the `wg.Add(1)` of line 60 wraps the counter and panics before the `defer` of
line 61 is reached. The activity has ended, by panic; it made no `Done()` call;
and the counter is left at -2147483648, not back at 2147483647. -/
theorem Run_serve_barrier_overflow_counterexample :
    (Run_serve (Init ":8080" (some { counter := 2147483647 })
        (NewHealthCheck : HealthCheck Unit)) (some GoError.ErrServerClosed) true).outcome
      = Outcome.panicked PanicValue.negativeWaitGroupCounter
    ∧ (Run_serve (Init ":8080" (some { counter := 2147483647 })
        (NewHealthCheck : HealthCheck Unit)) (some GoError.ErrServerClosed) true).outcome
      ≠ Outcome.blocked
    ∧ (Run_serve (Init ":8080" (some { counter := 2147483647 })
        (NewHealthCheck : HealthCheck Unit)) (some GoError.ErrServerClosed) true).events.count
        ServeEvent.wgDone = 0
    ∧ (Run_serve (Init ":8080" (some { counter := 2147483647 })
        (NewHealthCheck : HealthCheck Unit)) (some GoError.ErrServerClosed) true).wg
      = some { counter := -2147483648 }
    ∧ (Run_serve (Init ":8080" (some { counter := 2147483647 })
        (NewHealthCheck : HealthCheck Unit)) (some GoError.ErrServerClosed) true).wg
      ≠ some { counter := 2147483647 } := by
  decide

/-- C9, the code where it departs from the claim: when the context given to
`Run` becomes done at the instant `trigger`, the watcher calls `Shutdown` with
a context derived from that same, already done, context; the context passed is
done from `trigger` on, not from one second later, so it is already done at the
moment `Shutdown` is called. -/
theorem Run_shutdown_grace_context_already_done {ε : Type} (listenAddr : String)
    (wg : Option WaitGroup) (hc : HealthCheck ε) (trigger delay delay2 : Time) :
    (Run_shutdown (Init listenAddr wg hc) { doneFrom := some trigger } delay delay2).shutdown
        = some { ctx := { doneFrom := some trigger }, at_ := trigger + delay + delay2 }
    ∧ ((Run_shutdown (Init listenAddr wg hc) { doneFrom := some trigger } delay delay2).shutdown.map
        (fun call => call.ctx.isDone call.at_)) = some true
    ∧ ((Run_shutdown (Init listenAddr wg hc) { doneFrom := some trigger } delay delay2).shutdown.map
        (fun call => call.ctx.doneFrom)) ≠ some (some (trigger + 1 * Second)) := by
  have hle : (trigger : Nat) ≤ trigger + delay + 1 * Second :=
    Nat.le_trans (Nat.le_add_right _ _) (Nat.le_add_right _ _)
  have hcall : (trigger : Nat) ≤ trigger + delay + delay2 :=
    Nat.le_trans (Nat.le_add_right _ _) (Nat.le_add_right _ _)
  have hmin : min (trigger : Nat) (trigger + delay + 1 * Second) = trigger := min_eq_left hle
  have hrun :
      (Run_shutdown (Init listenAddr wg hc) { doneFrom := some trigger } delay delay2).shutdown
        = some { ctx := { doneFrom := some trigger }, at_ := trigger + delay + delay2 } := by
    simp only [Run_shutdown, Init, WithTimeout]
    rw [hmin]
  refine ⟨hrun, ?_, ?_⟩
  · rw [hrun]
    simp only [Option.map_some', Context.isDone, Option.some.injEq, decide_eq_true_eq]
    exact hcall
  · rw [hrun]
    simp only [Option.map_some', ne_eq, Option.some.injEq, Second]
    exact Nat.ne_of_lt (Nat.lt_add_of_pos_right (by decide))

end HealthCheckLib
